import Mathlib

/-!
Shallow embedding of `src/runtime/src/substratekitties.rs` (the
`substratekitties` module of the runtime) and proofs about it.

The module stores, under the `KittyStorage` prefix:
* `Kitties : map Hash => Kitty`            (registry of entities)
* `KittyOwner : map Hash => Option AccountId` (identifier -> owner)
* `OwnedKitty : map AccountId => Hash`     (owner -> identifier, single slot)
* `AllKittiesArray : map u64 => Hash`      (position -> identifier)
* `AllKittiesCount : u64`                  (number of kitties)
* `AllKittiesIndex : map Hash => u64`      (identifier -> position)
* `Nonce : u64`

and exposes one dispatchable, `create_kitty(origin) -> Result`, which

1. reads `all_kitties_count` and computes `checked_add(1)`, failing with an
   overflow message when the count is `u64::MAX`;
2. reads the nonce and derives `random_hash` by hashing
   `(random_seed, sender, nonce)`;
3. fails with a duplicate message when `KittyOwner` already has an entry at
   `random_hash` (note: the check is on `KittyOwner`, not on `Kitties`);
4. only then inserts into `Kitties`, `KittyOwner`, `AllKittiesArray` (at the
   old count), `AllKittiesIndex`, puts the new count, overwrites
   `OwnedKitty[sender]`, increments the nonce with an unchecked `+= 1`, and
   deposits a `Created(sender, random_hash)` event, returning `Ok(())`.

Machine integers are modelled as `Nat` with explicit `u64` bounds where the
source does checked or wrapping arithmetic.  Storage maps are modelled as
total functions into `Option`, where `none` means the key is absent;
`exists` in the source is `Option.isSome` here.  The hash primitive and the
per-block random seed are external collaborators and enter the model as
parameters of `create_kitty`.
-/

namespace Substratekitties

/-- `T::Hash`, abstracted; concrete values are used only as test points. -/
abbrev Hash := Nat

/-- `T::AccountId`, abstracted. -/
abbrev AccountId := Nat

/-- `T::Balance`, abstracted; the module only ever stores `sa(0)`. -/
abbrev Balance := Nat

/-- `u64::MAX`. -/
def u64Max : Nat := 18446744073709551615

/-- `u64::checked_add(self, 1)` for values in range. -/
def checkedAdd1 (n : Nat) : Option Nat :=
  if n + 1 ≤ u64Max then some (n + 1) else none

/-- The `Kitty<Hash, Balance>` struct of the source. -/
structure Kitty where
  id : Hash
  dna : Hash
  price : Balance
  gen : Nat
deriving DecidableEq

/-- The events declared by `decl_event`: only `Created(AccountId, Hash)`. -/
inductive REvent where
  | Created : AccountId → Hash → REvent
deriving DecidableEq

/-- The whole `KittyStorage` state, plus the list of deposited events. -/
structure KittyState where
  kitties : Hash → Option Kitty
  kittyOwner : Hash → Option AccountId
  ownedKitty : AccountId → Option Hash
  allKittiesArray : Nat → Option Hash
  allKittiesCount : Nat
  allKittiesIndex : Hash → Option Nat
  nonce : Nat
  events : List REvent

/-- Point update of a storage map (`insert` on a Substrate `StorageMap`). -/
def upd {α β : Type} [DecidableEq α] (m : α → Option β) (k : α) (v : β) :
    α → Option β :=
  fun x => if x = k then some v else m x

theorem upd_same {α β : Type} [DecidableEq α] (m : α → Option β) (k : α)
    (v : β) : upd m k v k = some v := by
  simp [upd]

theorem upd_other {α β : Type} [DecidableEq α] (m : α → Option β) (k : α)
    (v : β) {x : α} (h : x ≠ k) : upd m k v x = m x := by
  simp [upd, h]

/-- The error string on counter overflow (verbatim from the source). -/
def overflowMsg : String :=
  "Error: Overflow happened when trying to  register a new kitty"

/-- The error string on identifier collision (verbatim from the source). -/
def duplicateMsg : String :=
  "the kitty coressponding to this ID already exit!"

/--
`create_kitty`, transcribed line by line from the source.  `hashFn` stands
for `T::Hashing::hash` composed with the tuple encoding, `randomSeed` for
`system::Module::random_seed()`, and `sender` for the account returned by
`ensure_signed(origin)` (authentication is the host's job and is out of
scope).  The result pairs the post-state with the dispatch `Result`; on the
two error paths no write has happened yet, so the pre-state is returned.
-/
def create_kitty (hashFn : Hash → AccountId → Nat → Hash) (randomSeed : Hash)
    (sender : AccountId) (s : KittyState) : KittyState × Except String Unit :=
  let all_kitties_count := s.allKittiesCount
  match checkedAdd1 all_kitties_count with
  | none => (s, Except.error overflowMsg)
  | some new_all_kitties_count =>
    let nonce := s.nonce
    let random_hash := hashFn randomSeed sender nonce
    if (s.kittyOwner random_hash).isSome then (s, Except.error duplicateMsg)
    else
      let new_kitty : Kitty :=
        { id := random_hash, dna := random_hash, price := 0, gen := 0 }
      (⟨upd s.kitties random_hash new_kitty,
        upd s.kittyOwner random_hash sender,
        upd s.ownedKitty sender random_hash,
        upd s.allKittiesArray all_kitties_count random_hash,
        new_all_kitties_count,
        upd s.allKittiesIndex random_hash all_kitties_count,
        (s.nonce + 1) % (u64Max + 1),
        s.events ++ [REvent.Created sender random_hash]⟩,
       Except.ok ())

/-- Genesis: every map empty, both counters zero, no events. -/
def genesis : KittyState :=
  { kitties := fun _ => none
    kittyOwner := fun _ => none
    ownedKitty := fun _ => none
    allKittiesArray := fun _ => none
    allKittiesCount := 0
    allKittiesIndex := fun _ => none
    nonce := 0
    events := [] }

/-- States reachable from genesis by `create_kitty` calls (any hash
function, seed and sender at each step; failed calls leave the state as
returned, i.e. unchanged). -/
inductive Reachable : KittyState → Prop where
  | genesis : Reachable genesis
  | step (hashFn : Hash → AccountId → Nat → Hash) (randomSeed : Hash)
      (sender : AccountId) {s : KittyState} :
      Reachable s → Reachable (create_kitty hashFn randomSeed sender s).1

/-- Zero or more `create_kitty` calls, from an arbitrary start state. -/
inductive Steps : KittyState → KittyState → Prop where
  | refl (s : KittyState) : Steps s s
  | tail {s t : KittyState} (hashFn : Hash → AccountId → Nat → Hash)
      (randomSeed : Hash) (sender : AccountId) :
      Steps s t → Steps s (create_kitty hashFn randomSeed sender t).1

theorem create_kitty_overflow_eq (hashFn : Hash → AccountId → Nat → Hash)
    (randomSeed : Hash) (sender : AccountId) (s : KittyState)
    (h : u64Max ≤ s.allKittiesCount) :
    create_kitty hashFn randomSeed sender s = (s, Except.error overflowMsg) := by
  have hc : checkedAdd1 s.allKittiesCount = none := by
    simp [checkedAdd1]
    omega
  simp [create_kitty, hc]

theorem create_kitty_dup_eq (hashFn : Hash → AccountId → Nat → Hash)
    (randomSeed : Hash) (sender : AccountId) (s : KittyState)
    (h1 : s.allKittiesCount < u64Max)
    (h2 : (s.kittyOwner (hashFn randomSeed sender s.nonce)).isSome) :
    create_kitty hashFn randomSeed sender s = (s, Except.error duplicateMsg) := by
  have hc : checkedAdd1 s.allKittiesCount = some (s.allKittiesCount + 1) := by
    simp [checkedAdd1]
    omega
  simp [create_kitty, hc, h2]

theorem create_kitty_success_eq (hashFn : Hash → AccountId → Nat → Hash)
    (randomSeed : Hash) (sender : AccountId) (s : KittyState)
    (h1 : s.allKittiesCount < u64Max)
    (h2 : s.kittyOwner (hashFn randomSeed sender s.nonce) = none) :
    create_kitty hashFn randomSeed sender s =
      (⟨upd s.kitties (hashFn randomSeed sender s.nonce)
          { id := hashFn randomSeed sender s.nonce,
            dna := hashFn randomSeed sender s.nonce, price := 0, gen := 0 },
        upd s.kittyOwner (hashFn randomSeed sender s.nonce) sender,
        upd s.ownedKitty sender (hashFn randomSeed sender s.nonce),
        upd s.allKittiesArray s.allKittiesCount
          (hashFn randomSeed sender s.nonce),
        s.allKittiesCount + 1,
        upd s.allKittiesIndex (hashFn randomSeed sender s.nonce)
          s.allKittiesCount,
        (s.nonce + 1) % (u64Max + 1),
        s.events ++ [REvent.Created sender (hashFn randomSeed sender s.nonce)]⟩,
       Except.ok ()) := by
  have hc : checkedAdd1 s.allKittiesCount = some (s.allKittiesCount + 1) := by
    simp [checkedAdd1]
    omega
  simp [create_kitty, hc, h2]

theorem create_kitty_ok_iff (hashFn : Hash → AccountId → Nat → Hash)
    (randomSeed : Hash) (sender : AccountId) (s : KittyState) :
    (create_kitty hashFn randomSeed sender s).2 = Except.ok () ↔
      s.allKittiesCount < u64Max ∧
        s.kittyOwner (hashFn randomSeed sender s.nonce) = none := by
  by_cases h1 : s.allKittiesCount < u64Max
  · cases h2 : s.kittyOwner (hashFn randomSeed sender s.nonce) with
    | none =>
        rw [create_kitty_success_eq hashFn randomSeed sender s h1 h2]
        simp [h1, h2]
    | some c =>
        rw [create_kitty_dup_eq hashFn randomSeed sender s h1 (by simp [h2])]
        simp [h2]
  · rw [create_kitty_overflow_eq hashFn randomSeed sender s (by omega)]
    simp [h1]

/--
The inductive invariant carried through `Reachable`:
ownership and registry membership coincide; every registry key sits at
exactly one enumeration position below the count, with the reverse index
agreeing; positions at or above the count are empty; nonce and count march
in lockstep; the count stays within `u64`; every stored entity is the one
`create_kitty` built for its key.
-/
structure Inv (s : KittyState) : Prop where
  ownerIff : ∀ id, (s.kitties id).isSome ↔ (s.kittyOwner id).isSome
  memIff : ∀ id, (s.kitties id).isSome ↔
    ∃ i, i < s.allKittiesCount ∧ s.allKittiesArray i = some id
  idxOf : ∀ i id, i < s.allKittiesCount → s.allKittiesArray i = some id →
    s.allKittiesIndex id = some i
  arrNone : ∀ i, s.allKittiesCount ≤ i → s.allKittiesArray i = none
  arrSome : ∀ i, i < s.allKittiesCount → (s.allKittiesArray i).isSome
  nonceEq : s.nonce = s.allKittiesCount
  countLe : s.allKittiesCount ≤ u64Max
  wf : ∀ id k, s.kitties id = some k →
    k = { id := id, dna := id, price := 0, gen := 0 }

theorem Inv_genesis : Inv genesis := by
  refine ⟨?_, ?_, ?_, ?_, ?_, ?_, ?_, ?_⟩ <;>
    simp [genesis, u64Max]

theorem Inv_step (hashFn : Hash → AccountId → Nat → Hash) (randomSeed : Hash)
    (sender : AccountId) (s : KittyState) (hs : Inv s) :
    Inv (create_kitty hashFn randomSeed sender s).1 := by
  by_cases h1 : s.allKittiesCount < u64Max
  · cases h2 : s.kittyOwner (hashFn randomSeed sender s.nonce) with
    | some c =>
        rw [create_kitty_dup_eq hashFn randomSeed sender s h1 (by simp [h2])]
        exact hs
    | none =>
        rw [create_kitty_success_eq hashFn randomSeed sender s h1 h2]
        dsimp only
        set h := hashFn randomSeed sender s.nonce with hh
        set n := s.allKittiesCount with hn
        have hfresh : (s.kitties h).isSome = false := by
          rw [Bool.eq_false_iff]
          intro hsome
          rw [hs.ownerIff h, h2] at hsome
          simp at hsome
        have hnoWrap : (s.nonce + 1) % (u64Max + 1) = s.nonce + 1 := by
          have hne := hs.nonceEq
          refine Nat.mod_eq_of_lt ?_
          omega
        refine ⟨?_, ?_, ?_, ?_, ?_, ?_, ?_, ?_⟩ <;> dsimp only
        · intro id
          by_cases hid : id = h
          · subst hid
            simp [upd_same]
          · simp only [upd_other _ _ _ hid]
            exact hs.ownerIff id
        · intro id
          by_cases hid : id = h
          · subst hid
            simp only [upd_same, Option.isSome_some, true_iff]
            exact ⟨n, by omega, upd_same _ _ _⟩
          · simp only [upd_other _ _ _ hid]
            rw [hs.memIff id]
            constructor
            · rintro ⟨i, hi, harr⟩
              refine ⟨i, by omega, ?_⟩
              rw [upd_other _ _ _ (by omega)]
              exact harr
            · rintro ⟨i, hi, harr⟩
              by_cases hin : i = n
              · subst hin
                rw [upd_same] at harr
                exact absurd (Option.some.inj harr).symm hid
              · rw [upd_other _ _ _ hin] at harr
                exact ⟨i, by omega, harr⟩
        · intro i id hi harr
          by_cases hin : i = n
          · subst hin
            rw [upd_same] at harr
            obtain rfl := Option.some.inj harr
            rw [upd_same]
          · rw [upd_other _ _ _ hin] at harr
            have hi' : i < n := by omega
            have hidh : id ≠ h := by
              intro hid
              subst hid
              have hcon : (s.kitties h).isSome := (hs.memIff h).2 ⟨i, hi', harr⟩
              rw [hfresh] at hcon
              exact Bool.false_ne_true hcon
            rw [upd_other _ _ _ hidh]
            exact hs.idxOf i id hi' harr
        · intro i hi
          rw [upd_other _ _ _ (by omega)]
          exact hs.arrNone i (by omega)
        · intro i hi
          by_cases hin : i = n
          · subst hin
            simp [upd_same]
          · rw [upd_other _ _ _ hin]
            exact hs.arrSome i (by omega)
        · rw [hnoWrap, hs.nonceEq]
        · omega
        · intro id k hk
          by_cases hid : id = h
          · subst hid
            rw [upd_same] at hk
            exact (Option.some.inj hk).symm
          · rw [upd_other _ _ _ hid] at hk
            exact hs.wf id k hk
  · rw [create_kitty_overflow_eq hashFn randomSeed sender s (by omega)]
    exact hs

theorem Reachable_Inv (s : KittyState) (hs : Reachable s) : Inv s := by
  induction hs with
  | genesis => exact Inv_genesis
  | step hashFn randomSeed sender hr ih =>
      exact Inv_step hashFn randomSeed sender _ ih

theorem create_kitty_owner_mono (hashFn : Hash → AccountId → Nat → Hash)
    (randomSeed : Hash) (sender : AccountId) (s : KittyState) (x : Hash)
    (hx : (s.kittyOwner x).isSome) :
    (((create_kitty hashFn randomSeed sender s).1).kittyOwner x).isSome := by
  by_cases h1 : s.allKittiesCount < u64Max
  · cases h2 : s.kittyOwner (hashFn randomSeed sender s.nonce) with
    | some c =>
        rw [create_kitty_dup_eq hashFn randomSeed sender s h1 (by simp [h2])]
        exact hx
    | none =>
        rw [create_kitty_success_eq hashFn randomSeed sender s h1 h2]
        dsimp only
        by_cases hxh : x = hashFn randomSeed sender s.nonce
        · subst hxh
          simp [upd_same]
        · rw [upd_other _ _ _ hxh]
          exact hx
  · rw [create_kitty_overflow_eq hashFn randomSeed sender s (by omega)]
    exact hx

theorem Steps_owner_mono {s t : KittyState} (h : Steps s t) (x : Hash)
    (hx : (s.kittyOwner x).isSome) : (t.kittyOwner x).isSome := by
  induction h with
  | refl => exact hx
  | tail hashFn randomSeed sender hst ih =>
      exact create_kitty_owner_mono hashFn randomSeed sender _ x ih

theorem create_kitty_ok_owner (hashFn : Hash → AccountId → Nat → Hash)
    (randomSeed : Hash) (sender : AccountId) (s : KittyState)
    (h : (create_kitty hashFn randomSeed sender s).2 = Except.ok ()) :
    ((create_kitty hashFn randomSeed sender s).1).kittyOwner
      (hashFn randomSeed sender s.nonce) = some sender := by
  obtain ⟨h1, h2⟩ := (create_kitty_ok_iff hashFn randomSeed sender s).1 h
  rw [create_kitty_success_eq hashFn randomSeed sender s h1 h2]
  exact upd_same _ _ _

theorem length_filterMap_of_isSome {α β : Type} (f : α → Option β) :
    ∀ l : List α, (∀ x, x ∈ l → (f x).isSome) →
      (l.filterMap f).length = l.length := by
  intro l
  induction l with
  | nil => simp
  | cons a t ih =>
      intro h
      obtain ⟨b, hb⟩ := Option.isSome_iff_exists.1 (h a (by simp))
      rw [List.filterMap_cons, hb]
      simp only [List.length_cons]
      rw [ih (fun x hx => h x (by simp [hx]))]

/-- A concrete hash function used as a test point: the sum of the inputs. -/
def hashSum : Hash → AccountId → Nat → Hash := fun a c n => a + c + n

/-- A concrete hash function used as a test point: constantly zero. -/
def hashZero : Hash → AccountId → Nat → Hash := fun _ _ _ => 0

/-- A test state whose registry holds the entity with identifier 0 while
`KittyOwner` has no entry for it (count 1, nonce 0, nothing else). -/
def dupRegistryState : KittyState :=
  { kitties := fun x => if x = 0 then some { id := 0, dna := 0, price := 0, gen := 0 } else none
    kittyOwner := fun _ => none
    ownedKitty := fun _ => none
    allKittiesArray := fun _ => none
    allKittiesCount := 1
    allKittiesIndex := fun _ => none
    nonce := 0
    events := [] }

/-- A test state holding one fully indexed entity: identifier 5 owned by
account 1 at enumeration position 0, with count 1 and nonce 1. -/
def frameState : KittyState :=
  { kitties := fun x => if x = 5 then some { id := 5, dna := 5, price := 0, gen := 0 } else none
    kittyOwner := fun x => if x = 5 then some 1 else none
    ownedKitty := fun a => if a = 1 then some 5 else none
    allKittiesArray := fun i => if i = 0 then some 5 else none
    allKittiesCount := 1
    allKittiesIndex := fun x => if x = 5 then some 0 else none
    nonce := 1
    events := [] }

/-- A test state whose count sits at `u64::MAX` (all maps empty). -/
def fullState : KittyState :=
  { kitties := fun _ => none
    kittyOwner := fun _ => none
    ownedKitty := fun _ => none
    allKittiesArray := fun _ => none
    allKittiesCount := u64Max
    allKittiesIndex := fun _ => none
    nonce := 0
    events := [] }

/--
Claim C1: in any state with count below `u64::MAX` whose derived candidate
identifier is fresh, `create_kitty` by caller `c` succeeds, and afterwards
the new identifier is a key of `Kitties`, its owner is `c`, `OwnedKitty[c]`
points to it, `AllKittiesArray` maps the old count to it,
`AllKittiesIndex` maps it to the old count, and the count is the old count
plus one.
-/
theorem create_kitty_success_postcondition
    (hashFn : Hash → AccountId → Nat → Hash) (randomSeed : Hash)
    (c : AccountId) (s : KittyState)
    (hcount : s.allKittiesCount < u64Max)
    (hfresh : s.kittyOwner (hashFn randomSeed c s.nonce) = none) :
    (create_kitty hashFn randomSeed c s).2 = Except.ok () ∧
    (((create_kitty hashFn randomSeed c s).1).kitties
      (hashFn randomSeed c s.nonce)).isSome ∧
    ((create_kitty hashFn randomSeed c s).1).kittyOwner
      (hashFn randomSeed c s.nonce) = some c ∧
    ((create_kitty hashFn randomSeed c s).1).ownedKitty c =
      some (hashFn randomSeed c s.nonce) ∧
    ((create_kitty hashFn randomSeed c s).1).allKittiesArray
      s.allKittiesCount = some (hashFn randomSeed c s.nonce) ∧
    ((create_kitty hashFn randomSeed c s).1).allKittiesIndex
      (hashFn randomSeed c s.nonce) = some s.allKittiesCount ∧
    ((create_kitty hashFn randomSeed c s).1).allKittiesCount =
      s.allKittiesCount + 1 := by
  rw [create_kitty_success_eq hashFn randomSeed c s hcount hfresh]
  refine ⟨rfl, ?_, ?_, ?_, ?_, ?_, rfl⟩ <;> simp [upd_same]

/-- Witness for C1 at genesis with caller 7 and seed 5. -/
theorem create_kitty_success_postcondition_witness :
    (create_kitty hashSum 5 7 genesis).2 = Except.ok () ∧
    (((create_kitty hashSum 5 7 genesis).1).kitties
      (hashSum 5 7 genesis.nonce)).isSome ∧
    ((create_kitty hashSum 5 7 genesis).1).kittyOwner
      (hashSum 5 7 genesis.nonce) = some 7 ∧
    ((create_kitty hashSum 5 7 genesis).1).ownedKitty 7 =
      some (hashSum 5 7 genesis.nonce) ∧
    ((create_kitty hashSum 5 7 genesis).1).allKittiesArray
      genesis.allKittiesCount = some (hashSum 5 7 genesis.nonce) ∧
    ((create_kitty hashSum 5 7 genesis).1).allKittiesIndex
      (hashSum 5 7 genesis.nonce) = some genesis.allKittiesCount ∧
    ((create_kitty hashSum 5 7 genesis).1).allKittiesCount =
      genesis.allKittiesCount + 1 :=
  create_kitty_success_postcondition hashSum 5 7 genesis (by decide) rfl

/--
Claim C2: the identifier registered by a successful `create_kitty` differs
from the identifier of every previously successful creation: if a call from
`s0` succeeds, then after any further calls a succeeding call registers a
different identifier, because the first identifier is still present in
`KittyOwner` and the later call requires its own identifier to be absent.
-/
theorem create_kitty_ids_distinct
    (f0 f1 : Hash → AccountId → Nat → Hash) (a0 a1 : Hash)
    (c0 c1 : AccountId) (s0 s1 : KittyState)
    (h0 : (create_kitty f0 a0 c0 s0).2 = Except.ok ())
    (hsteps : Steps (create_kitty f0 a0 c0 s0).1 s1)
    (h1 : (create_kitty f1 a1 c1 s1).2 = Except.ok ()) :
    f1 a1 c1 s1.nonce ≠ f0 a0 c0 s0.nonce := by
  intro heq
  have hreg : (((create_kitty f0 a0 c0 s0).1).kittyOwner
      (f0 a0 c0 s0.nonce)).isSome := by
    rw [create_kitty_ok_owner f0 a0 c0 s0 h0]
    rfl
  have hs1 : (s1.kittyOwner (f0 a0 c0 s0.nonce)).isSome :=
    Steps_owner_mono hsteps _ hreg
  have hfresh := ((create_kitty_ok_iff f1 a1 c1 s1).1 h1).2
  rw [heq] at hfresh
  rw [hfresh] at hs1
  simp at hs1

/-- Witness for C2: account 1 creates at genesis, then account 2 creates
in the resulting state; the two identifiers differ. -/
theorem create_kitty_ids_distinct_witness :
    hashSum 0 2 ((create_kitty hashSum 0 1 genesis).1).nonce ≠
      hashSum 0 1 genesis.nonce :=
  create_kitty_ids_distinct hashSum hashSum 0 0 1 2 genesis
    ((create_kitty hashSum 0 1 genesis).1) rfl
    (Steps.refl ((create_kitty hashSum 0 1 genesis).1)) rfl

/--
Claim C3: when the count equals `u64::MAX`, `create_kitty` returns the
counter-overflow error and the post-state (registry, both ownership maps,
enumeration array, reverse index, count, nonce, events) is exactly the
pre-state.
-/
theorem create_kitty_overflow_atomic
    (hashFn : Hash → AccountId → Nat → Hash) (randomSeed : Hash)
    (sender : AccountId) (s : KittyState)
    (hcount : s.allKittiesCount = u64Max) :
    create_kitty hashFn randomSeed sender s = (s, Except.error overflowMsg) :=
  create_kitty_overflow_eq hashFn randomSeed sender s (le_of_eq hcount.symm)

/-- Witness for C3 at a state whose count is `u64::MAX`. -/
theorem create_kitty_overflow_atomic_witness :
    create_kitty hashSum 0 1 fullState = (fullState, Except.error overflowMsg) :=
  create_kitty_overflow_atomic hashSum 0 1 fullState rfl

/--
Claim C4 counterexample: in `dupRegistryState` the derived candidate
identifier (0) is already a key of the registry `Kitties`, yet
`create_kitty` succeeds instead of returning the duplicate-identifier
error: the source checks `KittyOwner`, not `Kitties`, at line 91.
-/
theorem create_kitty_duplicate_in_registry_cex :
    (dupRegistryState.kitties (hashZero 0 0 dupRegistryState.nonce)).isSome
        = true ∧
    (create_kitty hashZero 0 0 dupRegistryState).2 = Except.ok () := by
  exact ⟨rfl, rfl⟩

/--
Claim C4 (amended): for every state whose count is below `u64::MAX` and
whose derived candidate identifier is already a key of the ownership map
`KittyOwner`, `create_kitty` returns the duplicate-identifier error and
leaves the entire state unchanged.
-/
theorem create_kitty_duplicate_atomic
    (hashFn : Hash → AccountId → Nat → Hash) (randomSeed : Hash)
    (sender : AccountId) (s : KittyState)
    (hcount : s.allKittiesCount < u64Max)
    (hdup : (s.kittyOwner (hashFn randomSeed sender s.nonce)).isSome) :
    create_kitty hashFn randomSeed sender s = (s, Except.error duplicateMsg) :=
  create_kitty_dup_eq hashFn randomSeed sender s hcount hdup

/-- Witness for the amended C4: in `frameState` the constant-5 hash
collides with the registered identifier 5. -/
theorem create_kitty_duplicate_atomic_witness :
    create_kitty (fun _ _ _ => 5) 0 2 frameState =
      (frameState, Except.error duplicateMsg) :=
  create_kitty_duplicate_atomic (fun _ _ _ => 5) 0 2 frameState (by decide) rfl

/--
Claim C7 counterexample: the dispatch value of a successful `create_kitty`
is `Ok(())`, not the generated identifier: two successful calls whose
generated identifiers differ return identical values, so the return value
cannot carry the identifier.  (The identifier reaches the outside world via
the deposited `Created` event instead.)
-/
theorem create_kitty_returns_unit_cex :
    (create_kitty hashSum 0 1 genesis).2 = Except.ok () ∧
    (create_kitty hashSum 0 2 genesis).2 = Except.ok () ∧
    hashSum 0 1 genesis.nonce ≠ hashSum 0 2 genesis.nonce ∧
    (create_kitty hashSum 0 1 genesis).2 =
      (create_kitty hashSum 0 2 genesis).2 :=
  ⟨rfl, rfl, by decide, rfl⟩

/--
Claim C7 (amended): a successful `create_kitty` returns `Ok(())`, and the
newly generated identifier is delivered by depositing the event
`Created(sender, id)` (appended to the event list).
-/
theorem create_kitty_success_event
    (hashFn : Hash → AccountId → Nat → Hash) (randomSeed : Hash)
    (sender : AccountId) (s : KittyState)
    (h : (create_kitty hashFn randomSeed sender s).2 = Except.ok ()) :
    ((create_kitty hashFn randomSeed sender s).1).events =
      s.events ++ [REvent.Created sender (hashFn randomSeed sender s.nonce)] := by
  obtain ⟨h1, h2⟩ := (create_kitty_ok_iff hashFn randomSeed sender s).1 h
  rw [create_kitty_success_eq hashFn randomSeed sender s h1 h2]

/-- Witness for the amended C7 at genesis. -/
theorem create_kitty_success_event_witness :
    ((create_kitty hashSum 0 1 genesis).1).events =
      genesis.events ++ [REvent.Created 1 (hashSum 0 1 genesis.nonce)] :=
  create_kitty_success_event hashSum 0 1 genesis rfl

/--
Claim C5: in every reachable state the enumeration structures form a
bijection between the registry key set and `[0, count)`: every registry key
sits at exactly one position below the count with the reverse index
agreeing, and the count equals the number of registry keys (the list of
array entries below the count has length `count`, has no duplicates, and
its members are exactly the registry keys).
-/
theorem enumeration_bijection (s : KittyState) (hs : Reachable s) :
    (∀ id, (s.kitties id).isSome →
      ∃! i, i < s.allKittiesCount ∧ s.allKittiesArray i = some id ∧
        s.allKittiesIndex id = some i) ∧
    ((List.range s.allKittiesCount).filterMap s.allKittiesArray).length =
      s.allKittiesCount ∧
    ((List.range s.allKittiesCount).filterMap s.allKittiesArray).Nodup ∧
    (∀ id, id ∈ (List.range s.allKittiesCount).filterMap s.allKittiesArray ↔
      (s.kitties id).isSome) := by
  have hinv := Reachable_Inv s hs
  refine ⟨?_, ?_, ?_, ?_⟩
  · intro id hid
    obtain ⟨i, hi, harr⟩ := (hinv.memIff id).1 hid
    refine ⟨i, ⟨hi, harr, hinv.idxOf i id hi harr⟩, ?_⟩
    rintro j ⟨hj, harrj, hidxj⟩
    have : s.allKittiesIndex id = some j := hinv.idxOf j id hj harrj
    rw [hinv.idxOf i id hi harr] at this
    exact (Option.some.inj this).symm
  · rw [length_filterMap_of_isSome s.allKittiesArray (List.range s.allKittiesCount)
      (fun i hi => hinv.arrSome i (List.mem_range.1 hi))]
    exact List.length_range s.allKittiesCount
  · refine List.Nodup.filterMap ?_ (List.nodup_range s.allKittiesCount)
    intro i j id hmi hmj
    rw [Option.mem_def] at hmi hmj
    have hi : i < s.allKittiesCount := by
      by_contra hge
      rw [hinv.arrNone i (by omega)] at hmi
      exact Option.noConfusion hmi
    have hj : j < s.allKittiesCount := by
      by_contra hge
      rw [hinv.arrNone j (by omega)] at hmj
      exact Option.noConfusion hmj
    have h1 := hinv.idxOf i id hi hmi
    have h2 := hinv.idxOf j id hj hmj
    rw [h1] at h2
    exact Option.some.inj h2
  · intro id
    rw [List.mem_filterMap, hinv.memIff id]
    constructor
    · rintro ⟨i, hi, harr⟩
      exact ⟨i, List.mem_range.1 hi, harr⟩
    · rintro ⟨i, hi, harr⟩
      exact ⟨i, List.mem_range.2 hi, harr⟩

/-- Witness for C5 at genesis. -/
theorem enumeration_bijection_witness :
    (∀ id, (genesis.kitties id).isSome →
      ∃! i, i < genesis.allKittiesCount ∧
        genesis.allKittiesArray i = some id ∧
        genesis.allKittiesIndex id = some i) ∧
    ((List.range genesis.allKittiesCount).filterMap
      genesis.allKittiesArray).length = genesis.allKittiesCount ∧
    ((List.range genesis.allKittiesCount).filterMap
      genesis.allKittiesArray).Nodup ∧
    (∀ id, id ∈ (List.range genesis.allKittiesCount).filterMap
        genesis.allKittiesArray ↔ (genesis.kitties id).isSome) :=
  enumeration_bijection genesis Reachable.genesis

/--
Claim C6: in every reachable state, `owner_of(id)` is defined exactly when
`id` is a key of the registry `Kitties`.
-/
theorem owner_consistency (s : KittyState) (hs : Reachable s) (id : Hash) :
    (s.kittyOwner id).isSome ↔ (s.kitties id).isSome :=
  ((Reachable_Inv s hs).ownerIff id).symm

/-- Witness for C6 at genesis with identifier 0. -/
theorem owner_consistency_witness :
    (genesis.kittyOwner 0).isSome ↔ (genesis.kitties 0).isSome :=
  owner_consistency genesis Reachable.genesis 0

/--
Claim C8: when owner `c` already points to `id1` (which is registered,
owned by `c` and indexed at position `i` below the count), a subsequent
successful `create_kitty` by `c` produces a distinct identifier `id3`,
overwrites `OwnedKitty[c]` with `id3`, and leaves the entity `id1`, its
recorded owner, its array entry and its reverse-index position untouched.
-/
theorem owned_kitty_overwrite_frame
    (hashFn : Hash → AccountId → Nat → Hash) (randomSeed : Hash)
    (c : AccountId) (s : KittyState) (id1 : Hash) (k1 : Kitty) (i : Nat)
    (howned : s.ownedKitty c = some id1)
    (howner : s.kittyOwner id1 = some c)
    (hkit : s.kitties id1 = some k1)
    (harr : s.allKittiesArray i = some id1)
    (hi : i < s.allKittiesCount)
    (hidx : s.allKittiesIndex id1 = some i)
    (hok : (create_kitty hashFn randomSeed c s).2 = Except.ok ()) :
    ((create_kitty hashFn randomSeed c s).1).ownedKitty c =
      some (hashFn randomSeed c s.nonce) ∧
    hashFn randomSeed c s.nonce ≠ id1 ∧
    ((create_kitty hashFn randomSeed c s).1).kitties id1 = some k1 ∧
    ((create_kitty hashFn randomSeed c s).1).kittyOwner id1 = some c ∧
    ((create_kitty hashFn randomSeed c s).1).allKittiesArray i = some id1 ∧
    ((create_kitty hashFn randomSeed c s).1).allKittiesIndex id1 = some i := by
  obtain ⟨h1, h2⟩ := (create_kitty_ok_iff hashFn randomSeed c s).1 hok
  have hne : hashFn randomSeed c s.nonce ≠ id1 := by
    intro he
    rw [he, howner] at h2
    exact Option.noConfusion h2
  rw [create_kitty_success_eq hashFn randomSeed c s h1 h2]
  dsimp only
  refine ⟨upd_same _ _ _, hne, ?_, ?_, ?_, ?_⟩
  · rw [upd_other _ _ _ (fun he => hne he.symm)]
    exact hkit
  · rw [upd_other _ _ _ (fun he => hne he.symm)]
    exact howner
  · rw [upd_other _ _ _ (by omega)]
    exact harr
  · rw [upd_other _ _ _ (fun he => hne he.symm)]
    exact hidx

/-- Witness for C8 in `frameState`: account 1, owning identifier 5 at
position 0, creates again and gets identifier 2. -/
theorem owned_kitty_overwrite_frame_witness :
    ((create_kitty hashSum 0 1 frameState).1).ownedKitty 1 =
      some (hashSum 0 1 frameState.nonce) ∧
    hashSum 0 1 frameState.nonce ≠ 5 ∧
    ((create_kitty hashSum 0 1 frameState).1).kitties 5 =
      some { id := 5, dna := 5, price := 0, gen := 0 } ∧
    ((create_kitty hashSum 0 1 frameState).1).kittyOwner 5 = some 1 ∧
    ((create_kitty hashSum 0 1 frameState).1).allKittiesArray 0 = some 5 ∧
    ((create_kitty hashSum 0 1 frameState).1).allKittiesIndex 5 = some 0 :=
  owned_kitty_overwrite_frame hashSum 0 1 frameState 5
    { id := 5, dna := 5, price := 0, gen := 0 } 0
    rfl rfl rfl rfl (by decide) rfl rfl

/--
Claim C9: in every reachable state, every stored entity has `id` and `dna`
both equal to its registry key (the generated hash), price zero and
generation zero; and no in-scope operation ever mutates a stored entity:
a further `create_kitty` call leaves every existing entry of `Kitties`
intact.
-/
theorem kitty_wellformed_immutable (s : KittyState) (hs : Reachable s) :
    (∀ id k, s.kitties id = some k →
      k.id = id ∧ k.dna = id ∧ k.price = 0 ∧ k.gen = 0) ∧
    (∀ (hashFn : Hash → AccountId → Nat → Hash) (randomSeed : Hash)
      (sender : AccountId) (id : Hash) (k : Kitty), s.kitties id = some k →
      ((create_kitty hashFn randomSeed sender s).1).kitties id = some k) := by
  have hinv := Reachable_Inv s hs
  constructor
  · intro id k hk
    rw [hinv.wf id k hk]
    exact ⟨rfl, rfl, rfl, rfl⟩
  · intro hashFn randomSeed sender id k hk
    by_cases h1 : s.allKittiesCount < u64Max
    · cases h2 : s.kittyOwner (hashFn randomSeed sender s.nonce) with
      | some x =>
          rw [create_kitty_dup_eq hashFn randomSeed sender s h1 (by simp [h2])]
          exact hk
      | none =>
          rw [create_kitty_success_eq hashFn randomSeed sender s h1 h2]
          dsimp only
          have hne : id ≠ hashFn randomSeed sender s.nonce := by
            intro he
            have hsome : (s.kitties id).isSome := by
              rw [hk]
              rfl
            rw [hinv.ownerIff id, he, h2] at hsome
            exact Bool.noConfusion hsome
          rw [upd_other _ _ _ hne]
          exact hk
    · rw [create_kitty_overflow_eq hashFn randomSeed sender s (by omega)]
      exact hk

/-- Witness for C9 at genesis. -/
theorem kitty_wellformed_immutable_witness :
    (∀ id k, genesis.kitties id = some k →
      k.id = id ∧ k.dna = id ∧ k.price = 0 ∧ k.gen = 0) ∧
    (∀ (hashFn : Hash → AccountId → Nat → Hash) (randomSeed : Hash)
      (sender : AccountId) (id : Hash) (k : Kitty),
      genesis.kitties id = some k →
      ((create_kitty hashFn randomSeed sender genesis).1).kitties id
        = some k) :=
  kitty_wellformed_immutable genesis Reachable.genesis

/--
Claim C10: in every reachable state the nonce equals the count, so the
`checked_add` guard on the count also keeps the unchecked nonce increment
from wrapping: `create_kitty` never decreases the nonce, and a successful
call sets it to exactly the old nonce plus one, which stays within `u64`.
-/
theorem nonce_count_lockstep (s : KittyState) (hs : Reachable s) :
    s.nonce = s.allKittiesCount ∧
    ∀ (hashFn : Hash → AccountId → Nat → Hash) (randomSeed : Hash)
      (sender : AccountId),
      s.nonce ≤ ((create_kitty hashFn randomSeed sender s).1).nonce ∧
      ((create_kitty hashFn randomSeed sender s).2 = Except.ok () →
        ((create_kitty hashFn randomSeed sender s).1).nonce = s.nonce + 1 ∧
        s.nonce + 1 ≤ u64Max) := by
  have hinv := Reachable_Inv s hs
  refine ⟨hinv.nonceEq, ?_⟩
  intro hashFn randomSeed sender
  by_cases h1 : s.allKittiesCount < u64Max
  · cases h2 : s.kittyOwner (hashFn randomSeed sender s.nonce) with
    | some x =>
        rw [create_kitty_dup_eq hashFn randomSeed sender s h1 (by simp [h2])]
        refine ⟨le_refl _, ?_⟩
        intro hok
        exact absurd hok (by simp)
    | none =>
        rw [create_kitty_success_eq hashFn randomSeed sender s h1 h2]
        dsimp only
        have hne := hinv.nonceEq
        have hlt : s.nonce + 1 < u64Max + 1 := by omega
        rw [Nat.mod_eq_of_lt hlt]
        exact ⟨Nat.le_succ _, fun _ => ⟨rfl, by omega⟩⟩
  · rw [create_kitty_overflow_eq hashFn randomSeed sender s (by omega)]
    refine ⟨le_refl _, ?_⟩
    intro hok
    exact absurd hok (by simp)

/-- Witness for C10 at genesis. -/
theorem nonce_count_lockstep_witness :
    genesis.nonce = genesis.allKittiesCount ∧
    ∀ (hashFn : Hash → AccountId → Nat → Hash) (randomSeed : Hash)
      (sender : AccountId),
      genesis.nonce ≤
        ((create_kitty hashFn randomSeed sender genesis).1).nonce ∧
      ((create_kitty hashFn randomSeed sender genesis).2 = Except.ok () →
        ((create_kitty hashFn randomSeed sender genesis).1).nonce =
          genesis.nonce + 1 ∧
        genesis.nonce + 1 ≤ u64Max) :=
  nonce_count_lockstep genesis Reachable.genesis

end Substratekitties
